import Mathlib

set_option maxRecDepth 16384

/-!
Shallow embedding of `roles/openshift_health_checker/openshift_checks/etcd_imagedata_size.py`
(class `EtcdImageDataSize`).

Modelling conventions:
* Python dicts with a known set of keys become structures with `Option` fields
  (`none` = key absent); `d.get(k)` is the field itself, `d.get(k, v)` is `Option.getD`,
  and unguarded indexing `d[k]` raises `KeyError` when the field is `none`.
* The dict comprehension building `mount_for_path` becomes an insertion-ordered
  association list with replace-on-duplicate semantics, matching Python dicts.
* Python floats are modelled as exact rationals; `int(...)` is truncation toward zero;
  the `"{:.2f}".format` rendering is round-half-even to two decimals.
* Raised exceptions become `Except.error`; `self.execute_module("etcdkeysize", args)`
  becomes an explicit function argument `execute_module : ExecArgs → KeySizeResult`.
* `run` additionally returns the list of arguments of each `execute_module`
  invocation, in order, so that temporal claims about which hosts are contacted
  are statable; the second component is the Python return value.
-/

/-- Errors a Python run can raise: `OpenShiftCheckException msg`, or a `KeyError`
from unguarded dict indexing (field name recorded). -/
inductive PyError where
  | checkException (msg : String)
  | keyError (key : String)
deriving DecidableEq

instance {ε α : Type} [DecidableEq ε] [DecidableEq α] : DecidableEq (Except ε α) := fun
  | Except.ok a, Except.ok b =>
    if h : a = b then Decidable.isTrue (by rw [h]) else Decidable.isFalse (by simp [h])
  | Except.ok _, Except.error _ => Decidable.isFalse (by simp)
  | Except.error _, Except.ok _ => Decidable.isFalse (by simp)
  | Except.error e, Except.error f =>
    if h : e = f then Decidable.isTrue (by rw [h]) else Decidable.isFalse (by simp [h])

/-- One record of the `ansible_mounts` fact: the `mount` path plus the
`size_available` / `size_total` fields (absent fields are `none`; indexing an
absent field raises `KeyError`). -/
structure MountRecord where
  mount : String
  size_available : Option Int
  size_total : Option Int
deriving DecidableEq

/-- Insert into an insertion-ordered association list with Python-dict semantics:
an existing binding for the key is replaced in place, a new key is appended. -/
def dinsert (d : List (String × MountRecord)) (k : String) (v : MountRecord) :
    List (String × MountRecord) :=
  match d with
  | [] => [(k, v)]
  | (k₀, v₀) :: rest => if k₀ = k then (k, v) :: rest else (k₀, v₀) :: dinsert rest k v

/-- Association-list lookup (keys are unique in lists built by `dinsert`). -/
def dlookup (d : List (String × MountRecord)) (k : String) : Option MountRecord :=
  match d with
  | [] => none
  | (k₀, v₀) :: rest => if k₀ = k then some v₀ else dlookup rest k

/-- `mount_for_path = {mnt.get("mount"): mnt for mnt in ansible_mounts}` —
the dict comprehension of `_get_etcd_mountpath` (last write wins on duplicates). -/
def mount_for_path (ansible_mounts : List MountRecord) : List (String × MountRecord) :=
  ansible_mounts.foldl (fun d mnt => dinsert d mnt.mount mnt) []

/-- `valid_etcd_mount_paths` from `_get_etcd_mountpath`. -/
def valid_etcd_mount_paths : List String := ["/var/lib/etcd", "/var/lib", "/var", "/"]

/-- The `for path in valid_etcd_mount_paths: if path in mount_for_path: return ...`
loop of `_get_etcd_mountpath`: first candidate path present wins. -/
def walkPaths (d : List (String × MountRecord)) : List String → Option MountRecord
  | [] => none
  | p :: ps =>
    match dlookup d p with
    | some m => some m
    | none => walkPaths d ps

/-- Structural lexicographic comparison of character lists (by code points), as
Python compares strings.  Kernel-computable, unlike the iterator-based order. -/
def charListLe : List Char → List Char → Bool
  | [], _ => true
  | _ :: _, [] => false
  | c :: cs, d :: ds => if c = d then charListLe cs ds else decide (c < d)

/-- Lexicographic `≤` on strings; proved below (`strLe_iff`) to agree with the
standard string order. -/
def strLe (a b : String) : Bool := charListLe a.data b.data

/-- The keys of the mapping, sorted as Python `sorted(mount_for_path)` sorts them
(lexicographically ascending; `insertionSort` is a stable ascending sort). -/
def sortedKeys (d : List (String × MountRecord)) : List String :=
  List.insertionSort (fun a b => strLe a b = true) (d.map Prod.fst)

/-- `', '.join(sorted(mount_for_path)) or 'none'` — note Python's `or` falls back to
`'none'` exactly when the joined string is empty (falsy). -/
def joinedMountPaths (d : List (String × MountRecord)) : String :=
  let s := String.intercalate ", " (sortedKeys d)
  if s = "" then "none" else s

/-- `EtcdImageDataSize._get_etcd_mountpath`. -/
def _get_etcd_mountpath (ansible_mounts : List MountRecord) : Except PyError MountRecord :=
  let mfp := mount_for_path ansible_mounts
  match walkPaths mfp valid_etcd_mount_paths with
  | some m => Except.ok m
  | none =>
    Except.error (PyError.checkException
      ("Unable to determine a valid etcd mountpath. Paths mounted: " ++
        joinedMountPaths mfp ++ "."))

/-- The last record of the list whose `mount` equals `p` (later records take
priority), mirroring "last write wins" of the dict comprehension. -/
def lastMatch : List MountRecord → String → Option MountRecord
  | [], _ => none
  | m :: tl, p => (lastMatch tl p).or (if m.mount = p then some m else none)

/-- Exact value of a Python float expression, kept as an unreduced fraction
`num / den` (every constructor below keeps `den` positive).  Keeping the fraction
unreduced makes all operations structurally computable. -/
structure PyFloat where
  num : Int
  den : Nat
deriving DecidableEq

/-- `float(x)` for an integer `x`. -/
def PyFloat.ofInt (x : Int) : PyFloat := ⟨x, 1⟩

/-- `0.5 * f`. -/
def PyFloat.half (f : PyFloat) : PyFloat := ⟨f.num, 2 * f.den⟩

/-- `f / 10.0**9`. -/
def PyFloat.divTenPow9 (f : PyFloat) : PyFloat := ⟨f.num, f.den * 10 ^ 9⟩

/-- `f * k` for a natural literal `k`. -/
def PyFloat.mulNat (f : PyFloat) (k : Nat) : PyFloat := ⟨f.num * (k : Int), f.den⟩

/-- `int(f)`: truncation toward zero (`Int.tdiv` is truncating division). -/
def PyFloat.toInt (f : PyFloat) : Int := Int.tdiv f.num (f.den : Int)

/-- The exact rational value of the fraction. -/
def PyFloat.val (f : PyFloat) : ℚ := (f.num : ℚ) / (f.den : ℚ)

/-- Round to the nearest integer, ties to even — the rounding Python applies when
formatting a float with `"{:.2f}"`.  `Int.fdiv` is floor division, so `r / den`
is the fractional part, compared against `1/2` by cross-multiplication. -/
def roundHalfEven (f : PyFloat) : Int :=
  let fl := Int.fdiv f.num (f.den : Int)
  let r := f.num - fl * (f.den : Int)
  if 2 * r < (f.den : Int) then fl
  else if (f.den : Int) < 2 * r then fl + 1
  else if fl % 2 = 0 then fl else fl + 1

/-- Render with two decimal places, as Python `"{:.2f}".format` renders a float. -/
def fmt2f (f : PyFloat) : String :=
  let c := roundHalfEven (f.mulNat 100)
  let sign := if c < 0 then "-" else ""
  let n := c.natAbs
  sign ++ toString (n / 100) ++ "." ++
    (if n % 100 < 10 then "0" ++ toString (n % 100) else toString (n % 100))

/-- `EtcdImageDataSize._to_gigabytes`: `float(byte_size) / 10.0**9`. -/
def _to_gigabytes (byte_size : Int) : PyFloat :=
  PyFloat.divTenPow9 (PyFloat.ofInt byte_size)

example : fmt2f (_to_gigabytes 5000000000) = "5.00" := by decide

/-- The `args` dict passed to `self.execute_module("etcdkeysize", args)`.
The nested `cert` dict is flattened into its two entries `cert` and `key`. -/
structure ExecArgs where
  size_limit_bytes : Int
  paths : List String
  host : String
  port : Int
  protocol : String
  version_prefix : String
  allow_redirect : Bool
  ca_cert : String
  cert : String
  key : String
deriving DecidableEq

/-- The result dict of one `etcdkeysize` module invocation: the keys `run`
inspects, each `none` when absent.  Python truthiness: `failed` is truthy iff
`some true`; `module_stderr` is truthy iff present and non-empty. -/
structure KeySizeResult where
  rc : Option Int
  failed : Option Bool
  msg : Option String
  module_stderr : Option String
  size_limit_exceeded : Option Bool
deriving DecidableEq

/-- The dict `run` returns: the keys `failed` / `changed` / `msg`, each `none`
when the corresponding return path omits it. -/
structure CheckReport where
  failed : Option Bool
  changed : Option Bool
  msg : Option String
deriving DecidableEq

/-- Python `str` interpolation of a possibly-`None` value (`None` renders as
`"None"` inside `str.format`). -/
def optStr : Option String → String
  | some s => s
  | none => "None"

/-- Truthiness of `d.get("module_stderr")`: `None` and the empty string are falsy. -/
def truthyStr : Option String → Bool
  | some s => if s = "" then false else true
  | none => false

/-- The failure message of the `rc != 0 or failed` branch of `run`:
`reason` starts as `etcdkeysize.get("msg")` and is replaced by
`etcdkeysize["module_stderr"]` when that value is truthy. -/
def failRetrieveMsg (host : String) (r : KeySizeResult) : String :=
  let reason : Option String := if truthyStr r.module_stderr then r.module_stderr else r.msg
  "Failed to retrieve stats for etcd host \"" ++ host ++ "\": " ++ optStr reason

/-- The failure message of the `size_limit_exceeded` branch of `run`. -/
def exceedMsg (host : String) (size_limit : Int) : String :=
  "The size of OpenShift image data stored in etcd host \"" ++ host ++
    "\" exceeds the maximum recommended limit of " ++ fmt2f (_to_gigabytes size_limit) ++
    " GB. Use the `oadm prune images` command to cleanup unused Docker images."

/-- The `args` dict built for one host inside the loop of `run` (the non-host
fields are computed once before the loop and shared by every iteration). -/
def buildArgs (size_limit : Int) (port : Int) (protocol : String)
    (ca_cert cert key : String) (host : String) : ExecArgs :=
  { size_limit_bytes := size_limit
    paths := ["/openshift.io/images", "/openshift.io/imagestreams"]
    host := host
    port := port
    protocol := protocol
    version_prefix := "/v2"
    allow_redirect := true
    ca_cert := ca_cert
    cert := cert
    key := key }

/-- The `for etcd_host in list(etcd_hosts):` loop of `run`.  The first component
collects the argument dicts of the `execute_module` invocations, in order; the
second is the Python outcome (`Except.error` = an exception escapes `run`). -/
def checkEtcdHosts (execute_module : ExecArgs → KeySizeResult) (mkA : String → ExecArgs)
    (size_limit : Int) : List String → List ExecArgs × Except PyError CheckReport
  | [] => ([], Except.ok { failed := none, changed := some false, msg := none })
  | host :: rest =>
    let r := execute_module (mkA host)
    if r.rc.getD 0 ≠ 0 ∨ r.failed.getD false = true then
      ([mkA host], Except.ok
        { failed := some true, changed := some false, msg := some (failRetrieveMsg host r) })
    else
      match r.size_limit_exceeded with
      | none => ([mkA host], Except.error (PyError.keyError "size_limit_exceeded"))
      | some ex =>
        if ex then
          ([mkA host], Except.ok
            { failed := some true, changed := none, msg := some (exceedMsg host size_limit) })
        else
          let res := checkEtcdHosts execute_module mkA size_limit rest
          (mkA host :: res.1, res.2)

/-- The task variables `run` reads through `self.get_var` (each `none` = variable
absent; `get_var` without a default raises `OpenShiftCheckException` on an absent
variable, per the `openshift_checks` test suite, while `get_var(..., default=d)`
returns `d`).  Nested lookups are flattened to one field per dotted path. -/
structure TaskVars where
  ansible_mounts : Option (List MountRecord)
  etcd_max_image_data_size_bytes : Option Int
  etcd_use_ssl : Option Bool
  etcd_port : Option Int
  etcd_hosts : Option (List String)
  config_base : Option String
  etcd_client_cert : Option String
  etcd_client_key : Option String
  etcd_client_ca_cert : Option String
deriving DecidableEq

/-- `EtcdImageDataSize.run`, with `execute_module` passed explicitly.  Returns
the invocation trace of `execute_module` (first component) together with the
Python outcome.  Note the sizes of the resolved mount are read, and the default
limit computed, before the override lookup — exactly as in the source, where the
default argument of `get_var` is evaluated eagerly. -/
def run (execute_module : ExecArgs → KeySizeResult) (tv : TaskVars) :
    List ExecArgs × Except PyError CheckReport :=
  match tv.ansible_mounts with
  | none => ([], Except.error (PyError.checkException "ansible_mounts"))
  | some mounts =>
    match _get_etcd_mountpath mounts with
    | Except.error e => ([], Except.error e)
    | Except.ok etcd_mountpath =>
      match etcd_mountpath.size_available with
      | none => ([], Except.error (PyError.keyError "size_available"))
      | some etcd_avail_diskspace =>
        match etcd_mountpath.size_total with
        | none => ([], Except.error (PyError.keyError "size_total"))
        | some etcd_total_diskspace =>
          let etcd_imagedata_size_limit := tv.etcd_max_image_data_size_bytes.getD
            (PyFloat.toInt (PyFloat.half
              (PyFloat.ofInt (etcd_total_diskspace - etcd_avail_diskspace))))
          let etcd_is_ssl := tv.etcd_use_ssl.getD false
          let etcd_port := tv.etcd_port.getD 2379
          match tv.etcd_hosts with
          | none => ([], Except.error (PyError.checkException "openshift.master.etcd_hosts"))
          | some etcd_hosts =>
            match tv.config_base with
            | none => ([], Except.error (PyError.checkException "openshift.common.config_base"))
            | some config_base =>
              let cert := tv.etcd_client_cert.getD
                (config_base ++ "/master/master.etcd-client.crt")
              let key := tv.etcd_client_key.getD
                (config_base ++ "/master/master.etcd-client.key")
              let ca_cert := tv.etcd_client_ca_cert.getD
                (config_base ++ "/master/master.etcd-ca.crt")
              checkEtcdHosts execute_module
                (buildArgs etcd_imagedata_size_limit etcd_port
                  (if etcd_is_ssl then "https" else "http") ca_cert cert key)
                etcd_imagedata_size_limit etcd_hosts

example :
    _get_etcd_mountpath [⟨"/home", none, none⟩, ⟨"/var", some 1, some 2⟩] =
      Except.ok ⟨"/var", some 1, some 2⟩ := by decide

example :
    _get_etcd_mountpath [⟨"/home", none, none⟩] =
      Except.error (PyError.checkException
        "Unable to determine a valid etcd mountpath. Paths mounted: /home.") := by decide

example :
    _get_etcd_mountpath [] =
      Except.error (PyError.checkException
        "Unable to determine a valid etcd mountpath. Paths mounted: none.") := by decide
-- Dictionary, resolution and loop lemmas.
theorem dlookup_dinsert (d : List (String × MountRecord)) (k q : String) (v : MountRecord) :
    dlookup (dinsert d k v) q = if k = q then some v else dlookup d q := by
  induction d with
  | nil => by_cases h : k = q <;> simp [dinsert, dlookup, h]
  | cons hd tl ih =>
    obtain ⟨k₀, v₀⟩ := hd
    by_cases h₀ : k₀ = k
    · subst h₀
      by_cases h₁ : k₀ = q <;> simp [dinsert, dlookup, h₁]
    · by_cases h₁ : k₀ = q
      · subst h₁
        have hkq : ¬ k = k₀ := fun h => h₀ h.symm
        simp [dinsert, dlookup, h₀, hkq]
      · simp [dinsert, dlookup, h₀, h₁, ih]

theorem lastMatch_or_dlookup (ms : List MountRecord) (p : String) :
    ∀ d, dlookup (ms.foldl (fun d mnt => dinsert d mnt.mount mnt) d) p =
      (lastMatch ms p).or (dlookup d p) := by
  induction ms with
  | nil => intro d; simp [lastMatch]
  | cons m tl ih =>
    intro d
    have step : dlookup (dinsert d m.mount m) p =
        if m.mount = p then some m else dlookup d p := by
      rw [dlookup_dinsert]
    calc dlookup ((m :: tl).foldl (fun d mnt => dinsert d mnt.mount mnt) d) p
        = (lastMatch tl p).or (dlookup (dinsert d m.mount m) p) := ih _
      _ = (lastMatch (m :: tl) p).or (dlookup d p) := by
          rw [step]
          cases hl : lastMatch tl p <;> by_cases hm : m.mount = p <;>
            simp [lastMatch, hl, hm, Option.or]

theorem dlookup_mount_for_path (ms : List MountRecord) (p : String) :
    dlookup (mount_for_path ms) p = lastMatch ms p := by
  have := lastMatch_or_dlookup ms p []
  simpa [mount_for_path, dlookup] using this

theorem any_eq_lastMatch_isSome (ms : List MountRecord) (q : String) :
    (ms.any fun m => m.mount == q) = (lastMatch ms q).isSome := by
  induction ms with
  | nil => simp [lastMatch]
  | cons m tl ih =>
    cases hl : lastMatch tl q <;> by_cases hm : m.mount = q <;>
      simp [lastMatch, hl, hm, Option.or, ih]

theorem walkPaths_eq (d : List (String × MountRecord)) (ps : List String) :
    walkPaths d ps = (ps.find? fun q => (dlookup d q).isSome).bind (dlookup d) := by
  induction ps with
  | nil => simp [walkPaths]
  | cons p ps ih =>
    cases hp : dlookup d p <;> simp [walkPaths, List.find?, hp, ih]

theorem charListLe_iff (as bs : List Char) :
    charListLe as bs = true ↔ ¬ List.Lex (fun x y => x < y) bs as := by
  induction as generalizing bs with
  | nil =>
    exact iff_of_true (by simp [charListLe]) (fun h => by cases h)
  | cons c cs ih =>
    cases bs with
    | nil =>
      simp only [charListLe, Bool.false_eq_true, false_iff, not_not]
      exact List.Lex.nil
    | cons d ds =>
      by_cases hcd : c = d
      · subst hcd
        rw [show charListLe (c :: cs) (c :: ds) = charListLe cs ds from by
          simp [charListLe], List.Lex.cons_iff]
        exact ih ds
      · by_cases hlt : c < d
        · rw [show charListLe (c :: cs) (d :: ds) = true from by simp [charListLe, hcd, hlt]]
          refine iff_of_true rfl (fun h => ?_)
          cases h with
          | cons _ => exact hcd rfl
          | rel h₀ => exact lt_asymm hlt h₀
        · have hdc : d < c := lt_of_le_of_ne (le_of_not_lt hlt) (fun h => hcd h.symm)
          rw [show charListLe (c :: cs) (d :: ds) = false from by simp [charListLe, hcd, hlt]]
          simp only [Bool.false_eq_true, false_iff, not_not]
          exact List.Lex.rel hdc

theorem strLe_iff (a b : String) : strLe a b = true ↔ a ≤ b := by
  rw [String.le_iff_toList_le, ← not_lt]
  exact charListLe_iff a.data b.data

instance : IsTotal String (fun a b => strLe a b = true) :=
  ⟨fun a b => by
    rw [strLe_iff, strLe_iff]
    exact le_total a b⟩

instance : IsTrans String (fun a b => strLe a b = true) :=
  ⟨fun a b c hab hbc => by
    rw [strLe_iff] at hab hbc ⊢
    exact le_trans hab hbc⟩

theorem mem_keys_dinsert (d : List (String × MountRecord)) (k q : String) (v : MountRecord) :
    q ∈ (dinsert d k v).map Prod.fst ↔ q = k ∨ q ∈ d.map Prod.fst := by
  induction d with
  | nil => simp [dinsert]
  | cons hd tl ih =>
    obtain ⟨k₀, v₀⟩ := hd
    by_cases h₀ : k₀ = k
    · subst h₀
      simp [dinsert]
    · simp [dinsert, h₀, ih]
      tauto

theorem nodup_keys_dinsert (d : List (String × MountRecord)) (k : String) (v : MountRecord)
    (hd : (d.map Prod.fst).Nodup) : ((dinsert d k v).map Prod.fst).Nodup := by
  induction d with
  | nil => simp [dinsert]
  | cons hd₀ tl ih =>
    obtain ⟨k₀, v₀⟩ := hd₀
    simp only [List.map_cons, List.nodup_cons, List.mem_map] at hd
    by_cases h₀ : k₀ = k
    · subst h₀
      have hrw : dinsert ((k₀, v₀) :: tl) k₀ v = (k₀, v) :: tl := by simp [dinsert]
      rw [hrw]
      simp only [List.map_cons, List.nodup_cons, List.mem_map]
      exact hd
    · simp only [dinsert, if_neg h₀, List.map_cons, List.nodup_cons]
      constructor
      · intro hmem
        rcases (mem_keys_dinsert tl k k₀ v).mp (by simpa using hmem) with h | h
        · exact h₀ h
        · simp only [List.mem_map] at h
          exact hd.1 (by simpa using h)
      · exact ih hd.2

theorem mem_keys_mount_for_path (ms : List MountRecord) (q : String) :
    q ∈ (mount_for_path ms).map Prod.fst ↔ ∃ m ∈ ms, m.mount = q := by
  have aux : ∀ d, (q ∈ ((ms.foldl (fun d mnt => dinsert d mnt.mount mnt) d).map Prod.fst) ↔
      q ∈ d.map Prod.fst ∨ ∃ m ∈ ms, m.mount = q) := by
    induction ms with
    | nil => intro d; simp
    | cons m tl ih =>
      intro d
      rw [List.foldl_cons, ih, mem_keys_dinsert]
      constructor
      · rintro (h | h)
        · rcases h with h | h
          · exact Or.inr ⟨m, List.mem_cons_self m tl, h.symm⟩
          · exact Or.inl h
        · obtain ⟨m₁, hm₁, he⟩ := h
          exact Or.inr ⟨m₁, List.mem_cons_of_mem m hm₁, he⟩
      · rintro (h | h)
        · exact Or.inl (Or.inr h)
        · obtain ⟨m₁, hm₁, he⟩ := h
          rcases List.mem_cons.mp hm₁ with h₁ | h₁
          · subst h₁; exact Or.inl (Or.inl he.symm)
          · exact Or.inr ⟨m₁, h₁, he⟩
  simpa [mount_for_path] using aux []

theorem nodup_keys_mount_for_path (ms : List MountRecord) :
    ((mount_for_path ms).map Prod.fst).Nodup := by
  have aux : ∀ d, (d.map Prod.fst).Nodup →
      ((ms.foldl (fun d mnt => dinsert d mnt.mount mnt) d).map Prod.fst).Nodup := by
    induction ms with
    | nil => intro d h; simpa using h
    | cons m tl ih =>
      intro d h
      exact ih _ (nodup_keys_dinsert _ _ _ h)
  exact aux [] (by simp)

/-- C1: whenever some candidate path is present, mountpoint resolution returns the
record mapped to the first candidate (in the fixed priority order
`/var/lib/etcd, /var/lib, /var, /`) that any mount record matches, and that record
is the last record of the input with that path (duplicates: last write wins). -/
theorem etcd_mountpath_first_priority (ms : List MountRecord) (p : String)
    (hp : (valid_etcd_mount_paths.find? fun q => ms.any fun m => m.mount == q) = some p) :
    ∃ m, lastMatch ms p = some m ∧ _get_etcd_mountpath ms = Except.ok m := by
  have hpred : (fun q => ms.any fun m => m.mount == q) =
      (fun q => (dlookup (mount_for_path ms) q).isSome) := by
    funext q
    rw [any_eq_lastMatch_isSome, dlookup_mount_for_path]
  rw [hpred] at hp
  have hsome : (dlookup (mount_for_path ms) p).isSome := by
    simpa using List.find?_some hp
  obtain ⟨m, hm⟩ := Option.isSome_iff_exists.mp hsome
  refine ⟨m, ?_, ?_⟩
  · rw [← dlookup_mount_for_path]; exact hm
  · unfold _get_etcd_mountpath
    simp [walkPaths_eq, hp, hm]

/-- C5 (amended): when no candidate path is present, resolution raises
`OpenShiftCheckException` whose message lists, sorted and comma-separated, exactly
the mount paths present (each once), except that when the joined list is the empty
string — the mapping is empty, or its only key is the empty path — the word
`none` appears instead. -/
theorem mountpath_not_found_message (ms : List MountRecord) (ps : List String)
    (hnone : ∀ q ∈ valid_etcd_mount_paths, ∀ m ∈ ms, ¬ m.mount = q)
    (hps : ps = sortedKeys (mount_for_path ms)) :
    _get_etcd_mountpath ms = Except.error (PyError.checkException
        ("Unable to determine a valid etcd mountpath. Paths mounted: " ++
          (if String.intercalate ", " ps = "" then "none" else String.intercalate ", " ps) ++
          ".")) ∧
      ps.Sorted (fun a b => a ≤ b) ∧ ps.Nodup ∧
      (∀ q, q ∈ ps ↔ ∃ m ∈ ms, m.mount = q) := by
  have hfind : (valid_etcd_mount_paths.find? fun q =>
      (dlookup (mount_for_path ms) q).isSome) = none := by
    rw [List.find?_eq_none]
    intro q hq
    rw [dlookup_mount_for_path]
    have : lastMatch ms q = none := by
      rw [← Option.not_isSome_iff_eq_none, ← any_eq_lastMatch_isSome]
      simp only [List.any_eq_true, not_exists, not_and, Bool.not_eq_true]
      intro m hm
      simpa using hnone q hq m hm
    simp [this]
  refine ⟨?_, ?_, ?_, ?_⟩
  · unfold _get_etcd_mountpath
    simp only [walkPaths_eq, hfind, Option.none_bind, joinedMountPaths, hps]
  · rw [hps]
    exact (List.sorted_insertionSort _ _).imp (fun hab => (strLe_iff _ _).mp hab)
  · rw [hps]
    exact ((List.perm_insertionSort _ _).nodup_iff).mpr (nodup_keys_mount_for_path ms)
  · intro q
    rw [hps, sortedKeys, List.mem_insertionSort, mem_keys_mount_for_path]

def hostErrs (r : KeySizeResult) : Prop := r.rc.getD 0 ≠ 0 ∨ r.failed.getD false = true

def hostPasses (r : KeySizeResult) : Prop := ¬ hostErrs r ∧ r.size_limit_exceeded = some false

instance (r : KeySizeResult) : Decidable (hostErrs r) := by
  unfold hostErrs; infer_instance

instance (r : KeySizeResult) : Decidable (hostPasses r) := by
  unfold hostPasses; infer_instance

theorem checkEtcdHosts_cons_pass (e : ExecArgs → KeySizeResult) (f : String → ExecArgs)
    (L : Int) (h : String) (rest : List String) (hp : hostPasses (e (f h))) :
    checkEtcdHosts e f L (h :: rest) =
      (f h :: (checkEtcdHosts e f L rest).1, (checkEtcdHosts e f L rest).2) := by
  obtain ⟨hne, hex⟩ := hp
  unfold hostErrs at hne
  simp only [checkEtcdHosts]
  rw [if_neg hne, hex]
  rfl

theorem checkEtcdHosts_prefix_passes (e : ExecArgs → KeySizeResult) (f : String → ExecArgs)
    (L : Int) (pre rest : List String) (hpre : ∀ x ∈ pre, hostPasses (e (f x))) :
    checkEtcdHosts e f L (pre ++ rest) =
      (pre.map f ++ (checkEtcdHosts e f L rest).1, (checkEtcdHosts e f L rest).2) := by
  induction pre with
  | nil => simp
  | cons h tl ih =>
    rw [List.cons_append, checkEtcdHosts_cons_pass e f L h _ (hpre h (by simp)),
      ih (fun x hx => hpre x (by simp [hx]))]
    simp

theorem checkEtcdHosts_cons_err (e : ExecArgs → KeySizeResult) (f : String → ExecArgs)
    (L : Int) (h : String) (rest : List String) (he : hostErrs (e (f h))) :
    checkEtcdHosts e f L (h :: rest) =
      ([f h], Except.ok ⟨some true, some false, some (failRetrieveMsg h (e (f h)))⟩) := by
  unfold hostErrs at he
  simp only [checkEtcdHosts]
  rw [if_pos he]

theorem checkEtcdHosts_cons_exceed (e : ExecArgs → KeySizeResult) (f : String → ExecArgs)
    (L : Int) (h : String) (rest : List String) (hne : ¬ hostErrs (e (f h)))
    (hex : (e (f h)).size_limit_exceeded = some true) :
    checkEtcdHosts e f L (h :: rest) =
      ([f h], Except.ok ⟨some true, none, some (exceedMsg h L)⟩) := by
  unfold hostErrs at hne
  simp only [checkEtcdHosts]
  rw [if_neg hne, hex]
  rfl

theorem checkEtcdHosts_cons_nokey (e : ExecArgs → KeySizeResult) (f : String → ExecArgs)
    (L : Int) (h : String) (rest : List String) (hne : ¬ hostErrs (e (f h)))
    (hkey : (e (f h)).size_limit_exceeded = none) :
    checkEtcdHosts e f L (h :: rest) =
      ([f h], Except.error (PyError.keyError "size_limit_exceeded")) := by
  unfold hostErrs at hne
  simp only [checkEtcdHosts]
  rw [if_neg hne, hkey]

theorem mem_checkEtcdHosts_trace (e : ExecArgs → KeySizeResult) (f : String → ExecArgs)
    (L : Int) (hosts : List String) (a : ExecArgs)
    (ha : a ∈ (checkEtcdHosts e f L hosts).1) : ∃ h ∈ hosts, a = f h := by
  induction hosts with
  | nil => simp [checkEtcdHosts] at ha
  | cons h tl ih =>
    by_cases he : hostErrs (e (f h))
    · rw [checkEtcdHosts_cons_err e f L h tl he] at ha
      simp at ha
      exact ⟨h, by simp, ha⟩
    · cases hex : (e (f h)).size_limit_exceeded with
      | none =>
        rw [checkEtcdHosts_cons_nokey e f L h tl he hex] at ha
        simp at ha
        exact ⟨h, by simp, ha⟩
      | some b =>
        cases b with
        | true =>
          rw [checkEtcdHosts_cons_exceed e f L h tl he hex] at ha
          simp at ha
          exact ⟨h, by simp, ha⟩
        | false =>
          rw [checkEtcdHosts_cons_pass e f L h tl ⟨he, hex⟩] at ha
          rcases List.mem_cons.mp ha with h₁ | h₁
          · exact ⟨h, by simp, h₁⟩
          · obtain ⟨x, hx, hax⟩ := ih h₁
            exact ⟨x, by simp [hx], hax⟩

theorem run_eq_checkEtcdHosts (e : ExecArgs → KeySizeResult) (tv : TaskVars)
    (ms : List MountRecord) (mrec : MountRecord) (avail total : Int)
    (hosts : List String) (cb : String)
    (h₁ : tv.ansible_mounts = some ms)
    (h₂ : _get_etcd_mountpath ms = Except.ok mrec)
    (h₃ : mrec.size_available = some avail)
    (h₄ : mrec.size_total = some total)
    (h₅ : tv.etcd_hosts = some hosts)
    (h₆ : tv.config_base = some cb) :
    run e tv = checkEtcdHosts e
      (buildArgs
        (tv.etcd_max_image_data_size_bytes.getD
          (PyFloat.toInt (PyFloat.half (PyFloat.ofInt (total - avail)))))
        (tv.etcd_port.getD 2379)
        (if tv.etcd_use_ssl.getD false then "https" else "http")
        (tv.etcd_client_ca_cert.getD (cb ++ "/master/master.etcd-ca.crt"))
        (tv.etcd_client_cert.getD (cb ++ "/master/master.etcd-client.crt"))
        (tv.etcd_client_key.getD (cb ++ "/master/master.etcd-client.key")))
      (tv.etcd_max_image_data_size_bytes.getD
        (PyFloat.toInt (PyFloat.half (PyFloat.ofInt (total - avail)))))
      hosts := by
  unfold run
  rw [h₁]
  simp only [h₂, h₃, h₄, h₅, h₆]

-- Sample inputs shared by witnesses and counterexamples.

def okRes : KeySizeResult := ⟨some 0, none, none, none, some false⟩

def exceedRes : KeySizeResult := ⟨some 0, none, none, none, some true⟩

def eAllOk : ExecArgs → KeySizeResult := fun _ => okRes

def mntRoot : MountRecord := ⟨"/", some 40, some 100⟩

def tv100 : TaskVars :=
  ⟨some [mntRoot], none, none, none, some ["h1", "h2", "h3"], some "/etc/origin",
    none, none, none⟩

def f100 : String → ExecArgs :=
  buildArgs 30 2379 "http" "/etc/origin/master/master.etcd-ca.crt"
    "/etc/origin/master/master.etcd-client.crt" "/etc/origin/master/master.etcd-client.key"

theorem to_gigabytes_val (b : Int) :
    PyFloat.val (_to_gigabytes b) = (b : ℚ) / 10 ^ 9 := by
  simp [PyFloat.val, _to_gigabytes, PyFloat.divTenPow9, PyFloat.ofInt]
  norm_num

/-- C2 (amended): the size limit used in every executor request is the
`etcd_max_image_data_size_bytes` override verbatim when present, and otherwise
`int(0.5 * float(size_total - size_available))`, i.e. truncation toward zero of
half the used space; the truncation agrees with the claimed floor whenever
`size_available ≤ size_total`. -/
theorem run_size_limit_spec (e : ExecArgs → KeySizeResult) (tv : TaskVars)
    (ms : List MountRecord) (mrec : MountRecord) (avail total : Int)
    (hosts : List String) (cb : String)
    (h₁ : tv.ansible_mounts = some ms)
    (h₂ : _get_etcd_mountpath ms = Except.ok mrec)
    (h₃ : mrec.size_available = some avail)
    (h₄ : mrec.size_total = some total)
    (h₅ : tv.etcd_hosts = some hosts)
    (h₆ : tv.config_base = some cb) :
    (∀ a ∈ (run e tv).1, a.size_limit_bytes = tv.etcd_max_image_data_size_bytes.getD
        (PyFloat.toInt (PyFloat.half (PyFloat.ofInt (total - avail))))) ∧
    (∀ v, tv.etcd_max_image_data_size_bytes = some v →
      tv.etcd_max_image_data_size_bytes.getD
        (PyFloat.toInt (PyFloat.half (PyFloat.ofInt (total - avail)))) = v) ∧
    (avail ≤ total →
      PyFloat.toInt (PyFloat.half (PyFloat.ofInt (total - avail))) =
        ⌊(1/2 : ℚ) * ((total : ℚ) - (avail : ℚ))⌋) := by
  refine ⟨?_, ?_, ?_⟩
  · intro a ha
    rw [run_eq_checkEtcdHosts e tv ms mrec avail total hosts cb h₁ h₂ h₃ h₄ h₅ h₆] at ha
    obtain ⟨x, _, hax⟩ := mem_checkEtcdHosts_trace _ _ _ _ _ ha
    rw [hax]
    rfl
  · intro v hv
    rw [hv]
    rfl
  · intro hle
    have htd : PyFloat.toInt (PyFloat.half (PyFloat.ofInt (total - avail))) =
        Int.tdiv (total - avail) 2 := rfl
    have hcast : (1/2 : ℚ) * ((total : ℚ) - (avail : ℚ)) =
        ((total - avail : Int) : ℚ) / ((2 : ℕ) : ℚ) := by
      push_cast
      ring
    rw [htd, hcast, Rat.floor_intCast_div_natCast]
    exact Int.tdiv_eq_ediv (by omega) (by norm_num)

/-- C2 witness: with `size_total = 100`, `size_available = 40` and no override, the
limit used for every contacted host is `30`. -/
theorem run_size_limit_spec_witness :
    (∀ a ∈ (run eAllOk tv100).1, a.size_limit_bytes = tv100.etcd_max_image_data_size_bytes.getD
        (PyFloat.toInt (PyFloat.half (PyFloat.ofInt (100 - 40))))) ∧
    (40 : Int) ≤ 100 ∧
    tv100.etcd_max_image_data_size_bytes.getD
      (PyFloat.toInt (PyFloat.half (PyFloat.ofInt (100 - 40)))) = 30 ∧
    (run eAllOk tv100).1.map (fun a => a.size_limit_bytes) = [30, 30, 30] :=
  ⟨(run_size_limit_spec eAllOk tv100 [mntRoot] mntRoot 40 100 ["h1", "h2", "h3"]
      "/etc/origin" rfl (by decide) rfl rfl rfl rfl).1,
    by decide, by decide, by decide⟩

def mntNeg : MountRecord := ⟨"/", some 1, some 0⟩

def tvNeg : TaskVars :=
  ⟨some [mntNeg], none, none, none, some ["h1"], some "/etc/origin", none, none, none⟩

/-- C2 counterexample: with `size_total = 0`, `size_available = 1` and no override,
the code uses limit `0` (truncation toward zero), while the claimed
`floor(0.5 * (size_total - size_available))` is `-1`. -/
theorem run_size_limit_floor_counterexample :
    (run eAllOk tvNeg).1.map (fun a => a.size_limit_bytes) = [0] ∧
    ⌊(1/2 : ℚ) * ((0 : ℚ) - (1 : ℚ))⌋ = -1 ∧ (0 : Int) ≠ -1 := by
  refine ⟨by decide, ?_, by decide⟩
  rw [show (1/2 : ℚ) * ((0 : ℚ) - (1 : ℚ)) = -1/2 by norm_num, Int.floor_eq_iff]
  norm_num

def mntVarA : MountRecord := ⟨"/var", some 10, some 20⟩

def mntVarLib1 : MountRecord := ⟨"/var/lib", some 30, some 40⟩

def mntVarLib2 : MountRecord := ⟨"/var/lib", some 50, some 60⟩

def msC1 : List MountRecord := [⟨"/home", none, none⟩, mntVarA, mntVarLib1, mntVarLib2]

/-- C1 witness: among `/home`, `/var` and two `/var/lib` records (in scrambled
order), resolution returns the last `/var/lib` record — `/var/lib` is the
highest-priority candidate present, and its last duplicate wins. -/
theorem etcd_mountpath_first_priority_witness :
    ((valid_etcd_mount_paths.find? fun q => msC1.any fun m => m.mount == q) = some "/var/lib") ∧
    (∃ m, lastMatch msC1 "/var/lib" = some m ∧ _get_etcd_mountpath msC1 = Except.ok m) ∧
    _get_etcd_mountpath msC1 = Except.ok mntVarLib2 :=
  ⟨by decide, etcd_mountpath_first_priority msC1 "/var/lib" (by decide), by decide⟩

def msEmptyPath : List MountRecord := [⟨"", none, none⟩]

/-- C5 counterexample: for the mount list whose only record has the empty string as
its path, no candidate matches and the mapping is non-empty, yet the error message
says "none" instead of listing the (empty) path — Python's `or 'none'` triggers on
the empty *joined string*, not on an empty mapping. -/
theorem mountpath_error_none_counterexample :
    _get_etcd_mountpath msEmptyPath = Except.error (PyError.checkException
      "Unable to determine a valid etcd mountpath. Paths mounted: none.") ∧
    (mount_for_path msEmptyPath).map Prod.fst = [""] ∧
    String.intercalate ", " [""] = "" :=
  ⟨by decide, by decide, by decide⟩

def msNoCand : List MountRecord := [⟨"/srv", some 1, some 2⟩, ⟨"/home", some 3, some 4⟩]

/-- C5 witness: for mounts `/srv` and `/home` (no candidate present), resolution
fails and the message lists `/home, /srv` — every mounted path, sorted,
comma-separated. -/
theorem mountpath_not_found_message_witness :
    _get_etcd_mountpath msNoCand = Except.error (PyError.checkException
        ("Unable to determine a valid etcd mountpath. Paths mounted: " ++
          (if String.intercalate ", " ["/home", "/srv"] = "" then "none"
            else String.intercalate ", " ["/home", "/srv"]) ++ ".")) ∧
      List.Sorted (fun a b => a ≤ b) ["/home", "/srv"] ∧
      List.Nodup ["/home", "/srv"] ∧
      (∀ q, q ∈ ["/home", "/srv"] ↔ ∃ m ∈ msNoCand, m.mount = q) :=
  mountpath_not_found_message msNoCand ["/home", "/srv"] (by decide) (by decide)

/-- C3: hosts are measured sequentially in list order and the loop short-circuits
on the first host whose result fails or exceeds the limit: exactly the hosts up to
and including that host are invoked (in order), and the returned failed report
carries that host's failure message. -/
theorem run_short_circuit (e : ExecArgs → KeySizeResult) (tv : TaskVars)
    (ms : List MountRecord) (mrec : MountRecord) (avail total : Int) (cb : String)
    (pre : List String) (h : String) (post : List String) (L : Int) (f : String → ExecArgs)
    (h₁ : tv.ansible_mounts = some ms)
    (h₂ : _get_etcd_mountpath ms = Except.ok mrec)
    (h₃ : mrec.size_available = some avail)
    (h₄ : mrec.size_total = some total)
    (h₅ : tv.etcd_hosts = some (pre ++ h :: post))
    (h₆ : tv.config_base = some cb)
    (hL : L = tv.etcd_max_image_data_size_bytes.getD
      (PyFloat.toInt (PyFloat.half (PyFloat.ofInt (total - avail)))))
    (hf : f = buildArgs L (tv.etcd_port.getD 2379)
      (if tv.etcd_use_ssl.getD false then "https" else "http")
      (tv.etcd_client_ca_cert.getD (cb ++ "/master/master.etcd-ca.crt"))
      (tv.etcd_client_cert.getD (cb ++ "/master/master.etcd-client.crt"))
      (tv.etcd_client_key.getD (cb ++ "/master/master.etcd-client.key")))
    (hpre : ∀ x ∈ pre, hostPasses (e (f x)))
    (hbad : hostErrs (e (f h)) ∨
      (¬ hostErrs (e (f h)) ∧ (e (f h)).size_limit_exceeded = some true)) :
    (run e tv).1 = (pre ++ [h]).map f ∧
      ((run e tv).2 = Except.ok ⟨some true, some false, some (failRetrieveMsg h (e (f h)))⟩ ∨
        (run e tv).2 = Except.ok ⟨some true, none, some (exceedMsg h L)⟩) := by
  subst hL
  subst hf
  rw [run_eq_checkEtcdHosts e tv ms mrec avail total (pre ++ h :: post) cb h₁ h₂ h₃ h₄ h₅ h₆]
  rw [checkEtcdHosts_prefix_passes _ _ _ _ _ hpre]
  rcases hbad with herr | ⟨hne, hex⟩
  · rw [checkEtcdHosts_cons_err _ _ _ _ _ herr]
    exact ⟨by simp, Or.inl rfl⟩
  · rw [checkEtcdHosts_cons_exceed _ _ _ _ _ hne hex]
    exact ⟨by simp, Or.inr rfl⟩

def eH2Exceeds : ExecArgs → KeySizeResult := fun a => if a.host = "h2" then exceedRes else okRes

/-- C3 witness: with three hosts where `h1` passes and `h2` exceeds the limit,
exactly `h1` and `h2` are invoked (never `h3`) and the failed report names `h2`. -/
theorem run_short_circuit_witness :
    (run eH2Exceeds tv100).1 = (["h1"] ++ ["h2"]).map f100 ∧
      ((run eH2Exceeds tv100).2 =
          Except.ok ⟨some true, some false, some (failRetrieveMsg "h2" (eH2Exceeds (f100 "h2")))⟩ ∨
        (run eH2Exceeds tv100).2 = Except.ok ⟨some true, none, some (exceedMsg "h2" 30)⟩) :=
  run_short_circuit eH2Exceeds tv100 [mntRoot] mntRoot 40 100 "/etc/origin"
    ["h1"] "h2" ["h3"] 30 f100 rfl (by decide) rfl rfl rfl rfl rfl rfl
    (by decide) (Or.inr ⟨by decide, by decide⟩)

theorem checkEtcdHosts_report_shape (e : ExecArgs → KeySizeResult) (f : String → ExecArgs)
    (L : Int) (hosts : List String) (r : CheckReport)
    (hr : (checkEtcdHosts e f L hosts).2 = Except.ok r) :
    (r.changed = some false ∨ (r.changed = none ∧ r.failed = some true)) ∧
      (r.failed = none ∨ r.failed = some true) ∧
      (r.msg.isSome ↔ r.failed = some true) := by
  induction hosts with
  | nil =>
    simp only [checkEtcdHosts, Except.ok.injEq] at hr
    subst hr
    simp
  | cons h tl ih =>
    by_cases he : hostErrs (e (f h))
    · rw [checkEtcdHosts_cons_err e f L h tl he] at hr
      simp only [Except.ok.injEq] at hr
      subst hr
      simp
    · cases hex : (e (f h)).size_limit_exceeded with
      | none =>
        rw [checkEtcdHosts_cons_nokey e f L h tl he hex] at hr
        simp at hr
      | some b =>
        cases b with
        | true =>
          rw [checkEtcdHosts_cons_exceed e f L h tl he hex] at hr
          simp only [Except.ok.injEq] at hr
          subst hr
          simp
        | false =>
          rw [checkEtcdHosts_cons_pass e f L h tl ⟨he, hex⟩] at hr
          exact ih hr

/-- C4 (amended): whenever `run` returns a report, `changed` is `false` when
present but is absent on the limit-exceeded path (where `failed` is true);
`failed`, when present, is always `true`; and `msg` is present exactly when the
report is failed. -/
theorem run_report_shape (e : ExecArgs → KeySizeResult) (tv : TaskVars) (r : CheckReport)
    (hr : (run e tv).2 = Except.ok r) :
    (r.changed = some false ∨ (r.changed = none ∧ r.failed = some true)) ∧
      (r.failed = none ∨ r.failed = some true) ∧
      (r.msg.isSome ↔ r.failed = some true) := by
  unfold run at hr
  split at hr
  · simp at hr
  · split at hr
    · simp at hr
    · split at hr
      · simp at hr
      · split at hr
        · simp at hr
        · split at hr
          · simp at hr
          · split at hr
            · simp at hr
            · exact checkEtcdHosts_report_shape _ _ _ _ _ hr

/-- C4 witness: a run in which every host passes returns the report with `changed`
present and false, no `failed` flag and no message, satisfying the contract. -/
theorem run_report_shape_witness :
    (run eAllOk tv100).2 = Except.ok ⟨none, some false, none⟩ ∧
      (((⟨none, some false, none⟩ : CheckReport).changed = some false ∨
          ((⟨none, some false, none⟩ : CheckReport).changed = none ∧
            (⟨none, some false, none⟩ : CheckReport).failed = some true)) ∧
        ((⟨none, some false, none⟩ : CheckReport).failed = none ∨
          (⟨none, some false, none⟩ : CheckReport).failed = some true) ∧
        ((⟨none, some false, none⟩ : CheckReport).msg.isSome ↔
          (⟨none, some false, none⟩ : CheckReport).failed = some true)) :=
  ⟨by decide, run_report_shape eAllOk tv100 ⟨none, some false, none⟩ (by decide)⟩

/-- C4 counterexample: on the limit-exceeded return path the report omits the
`changed` key entirely, so `changed` is not present on every return path. -/
theorem run_report_changed_counterexample :
    (run eH2Exceeds tv100).2 = Except.ok ⟨some true, none, some (exceedMsg "h2" 30)⟩ ∧
      (⟨some true, none, some (exceedMsg "h2" 30)⟩ : CheckReport).changed = none :=
  ⟨by decide, rfl⟩

/-- C6 (amended): when the executor result has non-zero `rc` or a truthy `failed`
flag, `run` immediately returns a failed report embedding the host and a reason;
the reason is `module_stderr` when that field is present and non-empty (truthy),
and otherwise the `msg` field (rendered as `"None"` when absent). -/
theorem run_executor_failure_message (e : ExecArgs → KeySizeResult) (tv : TaskVars)
    (ms : List MountRecord) (mrec : MountRecord) (avail total : Int) (cb : String)
    (h : String) (rest : List String) (L : Int) (f : String → ExecArgs)
    (h₁ : tv.ansible_mounts = some ms)
    (h₂ : _get_etcd_mountpath ms = Except.ok mrec)
    (h₃ : mrec.size_available = some avail)
    (h₄ : mrec.size_total = some total)
    (h₅ : tv.etcd_hosts = some (h :: rest))
    (h₆ : tv.config_base = some cb)
    (hL : L = tv.etcd_max_image_data_size_bytes.getD
      (PyFloat.toInt (PyFloat.half (PyFloat.ofInt (total - avail)))))
    (hf : f = buildArgs L (tv.etcd_port.getD 2379)
      (if tv.etcd_use_ssl.getD false then "https" else "http")
      (tv.etcd_client_ca_cert.getD (cb ++ "/master/master.etcd-ca.crt"))
      (tv.etcd_client_cert.getD (cb ++ "/master/master.etcd-client.crt"))
      (tv.etcd_client_key.getD (cb ++ "/master/master.etcd-client.key")))
    (herr : hostErrs (e (f h))) :
    (run e tv).1 = [f h] ∧
      (run e tv).2 = Except.ok
        ⟨some true, some false, some (failRetrieveMsg h (e (f h)))⟩ ∧
      (∀ s, (e (f h)).module_stderr = some s → ¬ s = "" →
        failRetrieveMsg h (e (f h)) =
          "Failed to retrieve stats for etcd host \"" ++ h ++ "\": " ++ s) ∧
      (truthyStr (e (f h)).module_stderr = false →
        failRetrieveMsg h (e (f h)) =
          "Failed to retrieve stats for etcd host \"" ++ h ++ "\": " ++
            optStr (e (f h)).msg) := by
  subst hL
  subst hf
  rw [run_eq_checkEtcdHosts e tv ms mrec avail total (h :: rest) cb h₁ h₂ h₃ h₄ h₅ h₆]
  rw [checkEtcdHosts_cons_err _ _ _ _ _ herr]
  refine ⟨rfl, rfl, ?_, ?_⟩
  · intro s hs hne
    unfold failRetrieveMsg truthyStr
    rw [hs]
    simp [hne, optStr]
  · intro ht
    unfold failRetrieveMsg
    rw [ht]
    simp

def errRes : KeySizeResult := ⟨some 1, none, some "generic msg", some "connection refused", none⟩

def eErr : ExecArgs → KeySizeResult := fun _ => errRes

def tvOneHost : TaskVars :=
  ⟨some [mntRoot], none, none, none, some ["h1"], some "/etc/origin", none, none, none⟩

def fOne : String → ExecArgs := f100

/-- C6 witness: `rc = 1` with `module_stderr = "connection refused"` and
`msg = "generic msg"` both present — the failure message embeds
`connection refused`, not the generic `msg`. -/
theorem run_executor_failure_message_witness :
    ((run eErr tvOneHost).1 = [fOne "h1"] ∧
      (run eErr tvOneHost).2 = Except.ok
        ⟨some true, some false, some (failRetrieveMsg "h1" (eErr (fOne "h1")))⟩ ∧
      (∀ s, (eErr (fOne "h1")).module_stderr = some s → ¬ s = "" →
        failRetrieveMsg "h1" (eErr (fOne "h1")) =
          "Failed to retrieve stats for etcd host \"" ++ "h1" ++ "\": " ++ s) ∧
      (truthyStr (eErr (fOne "h1")).module_stderr = false →
        failRetrieveMsg "h1" (eErr (fOne "h1")) =
          "Failed to retrieve stats for etcd host \"" ++ "h1" ++ "\": " ++
            optStr (eErr (fOne "h1")).msg)) ∧
    (run eErr tvOneHost).2 = Except.ok ⟨some true, some false,
      some "Failed to retrieve stats for etcd host \"h1\": connection refused"⟩ :=
  ⟨run_executor_failure_message eErr tvOneHost [mntRoot] mntRoot 40 100 "/etc/origin"
      "h1" [] 30 fOne rfl (by decide) rfl rfl rfl rfl rfl rfl (by decide),
    by decide⟩

def errEmptyStderr : KeySizeResult := ⟨some 1, none, some "generic", some "", none⟩

def eErrEmpty : ExecArgs → KeySizeResult := fun _ => errEmptyStderr

/-- C6 counterexample: `module_stderr` and `msg` are both present, but
`module_stderr` is the empty string, so the code's truthiness test skips it and
the message embeds the generic `msg` instead — "present" is not sufficient. -/
theorem run_module_stderr_empty_counterexample :
    errEmptyStderr.module_stderr = some "" ∧ errEmptyStderr.msg = some "generic" ∧
      (run eErrEmpty tvOneHost).2 = Except.ok ⟨some true, some false,
        some "Failed to retrieve stats for etcd host \"h1\": generic"⟩ :=
  ⟨rfl, rfl, by decide⟩

/-- C7: when a host's result has `size_limit_exceeded` true (after every earlier
host passed), the failure message names that host and restates the limit converted
to gigabytes — the exact value divided by `10^9` — rendered with two decimals, and
`5000000000` bytes renders as `5.00`. -/
theorem run_size_limit_exceeded_message (e : ExecArgs → KeySizeResult) (tv : TaskVars)
    (ms : List MountRecord) (mrec : MountRecord) (avail total : Int) (cb : String)
    (pre : List String) (h : String) (post : List String) (L : Int) (f : String → ExecArgs)
    (h₁ : tv.ansible_mounts = some ms)
    (h₂ : _get_etcd_mountpath ms = Except.ok mrec)
    (h₃ : mrec.size_available = some avail)
    (h₄ : mrec.size_total = some total)
    (h₅ : tv.etcd_hosts = some (pre ++ h :: post))
    (h₆ : tv.config_base = some cb)
    (hL : L = tv.etcd_max_image_data_size_bytes.getD
      (PyFloat.toInt (PyFloat.half (PyFloat.ofInt (total - avail)))))
    (hf : f = buildArgs L (tv.etcd_port.getD 2379)
      (if tv.etcd_use_ssl.getD false then "https" else "http")
      (tv.etcd_client_ca_cert.getD (cb ++ "/master/master.etcd-ca.crt"))
      (tv.etcd_client_cert.getD (cb ++ "/master/master.etcd-client.crt"))
      (tv.etcd_client_key.getD (cb ++ "/master/master.etcd-client.key")))
    (hpre : ∀ x ∈ pre, hostPasses (e (f x)))
    (hne : ¬ hostErrs (e (f h)))
    (hex : (e (f h)).size_limit_exceeded = some true) :
    (run e tv).2 = Except.ok ⟨some true, none, some
        ("The size of OpenShift image data stored in etcd host \"" ++ h ++
          "\" exceeds the maximum recommended limit of " ++ fmt2f (_to_gigabytes L) ++
          " GB. Use the `oadm prune images` command to cleanup unused Docker images.")⟩ ∧
      PyFloat.val (_to_gigabytes L) = (L : ℚ) / 10 ^ 9 ∧
      fmt2f (_to_gigabytes 5000000000) = "5.00" := by
  subst hL
  subst hf
  rw [run_eq_checkEtcdHosts e tv ms mrec avail total (pre ++ h :: post) cb h₁ h₂ h₃ h₄ h₅ h₆]
  rw [checkEtcdHosts_prefix_passes _ _ _ _ _ hpre]
  rw [checkEtcdHosts_cons_exceed _ _ _ _ _ hne hex]
  exact ⟨rfl, to_gigabytes_val _, by decide⟩

def tvOv5 : TaskVars :=
  ⟨some [mntRoot], some 5000000000, none, none, some ["h1"], some "/etc/origin",
    none, none, none⟩

def eExceedAll : ExecArgs → KeySizeResult := fun _ => exceedRes

def fOv5 : String → ExecArgs :=
  buildArgs 5000000000 2379 "http" "/etc/origin/master/master.etcd-ca.crt"
    "/etc/origin/master/master.etcd-client.crt" "/etc/origin/master/master.etcd-client.key"

/-- C7 witness: with the override set to `5000000000` bytes and a host exceeding
the limit, the failure message renders the limit as `5.00 GB`. -/
theorem run_size_limit_exceeded_message_witness :
    ((run eExceedAll tvOv5).2 = Except.ok ⟨some true, none, some
        ("The size of OpenShift image data stored in etcd host \"" ++ "h1" ++
          "\" exceeds the maximum recommended limit of " ++
          fmt2f (_to_gigabytes 5000000000) ++
          " GB. Use the `oadm prune images` command to cleanup unused Docker images.")⟩ ∧
      PyFloat.val (_to_gigabytes 5000000000) = ((5000000000 : Int) : ℚ) / 10 ^ 9 ∧
      fmt2f (_to_gigabytes 5000000000) = "5.00") ∧
    (run eExceedAll tvOv5).2 = Except.ok ⟨some true, none, some
      "The size of OpenShift image data stored in etcd host \"h1\" exceeds the maximum recommended limit of 5.00 GB. Use the `oadm prune images` command to cleanup unused Docker images."⟩ :=
  ⟨run_size_limit_exceeded_message eExceedAll tvOv5 [mntRoot] mntRoot 40 100 "/etc/origin"
      [] "h1" [] 5000000000 fOv5 rfl (by decide) rfl rfl rfl rfl rfl rfl
      (by decide) (by decide) (by decide),
    by decide⟩

/-- C8: one size limit is computed per run and every executor request carries it,
together with the fixed key-prefix paths, version-prefix `/v2`, redirect-follow
enabled, and protocol `https` iff the SSL flag is true, else `http`. -/
theorem run_request_invariants (e : ExecArgs → KeySizeResult) (tv : TaskVars)
    (ms : List MountRecord) (mrec : MountRecord) (avail total : Int)
    (hosts : List String) (cb : String) (L : Int) (f : String → ExecArgs)
    (h₁ : tv.ansible_mounts = some ms)
    (h₂ : _get_etcd_mountpath ms = Except.ok mrec)
    (h₃ : mrec.size_available = some avail)
    (h₄ : mrec.size_total = some total)
    (h₅ : tv.etcd_hosts = some hosts)
    (h₆ : tv.config_base = some cb)
    (hL : L = tv.etcd_max_image_data_size_bytes.getD
      (PyFloat.toInt (PyFloat.half (PyFloat.ofInt (total - avail)))))
    (hf : f = buildArgs L (tv.etcd_port.getD 2379)
      (if tv.etcd_use_ssl.getD false then "https" else "http")
      (tv.etcd_client_ca_cert.getD (cb ++ "/master/master.etcd-ca.crt"))
      (tv.etcd_client_cert.getD (cb ++ "/master/master.etcd-client.crt"))
      (tv.etcd_client_key.getD (cb ++ "/master/master.etcd-client.key"))) :
    ∀ a ∈ (run e tv).1,
      a.size_limit_bytes = L ∧
      a.paths = ["/openshift.io/images", "/openshift.io/imagestreams"] ∧
      ExecArgs.version_prefix a = "/v2" ∧
      a.allow_redirect = true ∧
      a.protocol = (if tv.etcd_use_ssl.getD false then "https" else "http") ∧
      (a.protocol = "https" ↔ tv.etcd_use_ssl.getD false = true) := by
  subst hL
  subst hf
  intro a ha
  rw [run_eq_checkEtcdHosts e tv ms mrec avail total hosts cb h₁ h₂ h₃ h₄ h₅ h₆] at ha
  obtain ⟨x, _, hax⟩ := mem_checkEtcdHosts_trace _ _ _ _ _ ha
  subst hax
  refine ⟨rfl, rfl, rfl, rfl, rfl, ?_⟩
  cases hb : tv.etcd_use_ssl.getD false <;> simp [buildArgs, hb]

def tvSsl : TaskVars :=
  ⟨some [mntRoot], none, some true, none, some ["h1"], some "/etc/origin",
    none, none, none⟩

/-- C8 witness: on a concrete three-host run every request carries limit `30`,
the fixed paths, `/v2`, redirect-follow and protocol `http` (SSL flag unset); a
run with the SSL flag true uses `https`. -/
theorem run_request_invariants_witness :
    (∀ a ∈ (run eAllOk tv100).1,
      a.size_limit_bytes = 30 ∧
      a.paths = ["/openshift.io/images", "/openshift.io/imagestreams"] ∧
      ExecArgs.version_prefix a = "/v2" ∧
      a.allow_redirect = true ∧
      a.protocol = (if tv100.etcd_use_ssl.getD false then "https" else "http") ∧
      (a.protocol = "https" ↔ tv100.etcd_use_ssl.getD false = true)) ∧
    (run eAllOk tv100).1.map (fun a => a.protocol) = ["http", "http", "http"] ∧
    (run eAllOk tvSsl).1.map (fun a => a.protocol) = ["https"] :=
  ⟨run_request_invariants eAllOk tv100 [mntRoot] mntRoot 40 100 ["h1", "h2", "h3"]
      "/etc/origin" 30 f100 rfl (by decide) rfl rfl rfl rfl rfl rfl,
    by decide, by decide⟩

/-- C9: a successful executor result (zero/absent `rc`, falsy `failed`) lacking
the `size_limit_exceeded` key makes `run` raise a `KeyError` instead of returning
any report; the loop stops at that host. -/
theorem run_missing_size_limit_exceeded_key (e : ExecArgs → KeySizeResult) (tv : TaskVars)
    (ms : List MountRecord) (mrec : MountRecord) (avail total : Int) (cb : String)
    (pre : List String) (h : String) (post : List String) (L : Int) (f : String → ExecArgs)
    (h₁ : tv.ansible_mounts = some ms)
    (h₂ : _get_etcd_mountpath ms = Except.ok mrec)
    (h₃ : mrec.size_available = some avail)
    (h₄ : mrec.size_total = some total)
    (h₅ : tv.etcd_hosts = some (pre ++ h :: post))
    (h₆ : tv.config_base = some cb)
    (hL : L = tv.etcd_max_image_data_size_bytes.getD
      (PyFloat.toInt (PyFloat.half (PyFloat.ofInt (total - avail)))))
    (hf : f = buildArgs L (tv.etcd_port.getD 2379)
      (if tv.etcd_use_ssl.getD false then "https" else "http")
      (tv.etcd_client_ca_cert.getD (cb ++ "/master/master.etcd-ca.crt"))
      (tv.etcd_client_cert.getD (cb ++ "/master/master.etcd-client.crt"))
      (tv.etcd_client_key.getD (cb ++ "/master/master.etcd-client.key")))
    (hpre : ∀ x ∈ pre, hostPasses (e (f x)))
    (hne : ¬ hostErrs (e (f h)))
    (hkey : (e (f h)).size_limit_exceeded = none) :
    (run e tv).1 = (pre ++ [h]).map f ∧
      (run e tv).2 = Except.error (PyError.keyError "size_limit_exceeded") := by
  subst hL
  subst hf
  rw [run_eq_checkEtcdHosts e tv ms mrec avail total (pre ++ h :: post) cb h₁ h₂ h₃ h₄ h₅ h₆]
  rw [checkEtcdHosts_prefix_passes _ _ _ _ _ hpre]
  rw [checkEtcdHosts_cons_nokey _ _ _ _ _ hne hkey]
  exact ⟨by simp, rfl⟩

def okNoKey : KeySizeResult := ⟨some 0, none, none, none, none⟩

def eNoKey : ExecArgs → KeySizeResult := fun _ => okNoKey

/-- C9 witness: a concrete run whose executor answers successfully but without the
`size_limit_exceeded` key raises `KeyError "size_limit_exceeded"`. -/
theorem run_missing_size_limit_exceeded_key_witness :
    ((run eNoKey tvOneHost).1 = ([] ++ ["h1"]).map fOne ∧
      (run eNoKey tvOneHost).2 = Except.error (PyError.keyError "size_limit_exceeded")) ∧
    okNoKey.rc = some 0 ∧ okNoKey.failed = none ∧ okNoKey.size_limit_exceeded = none :=
  ⟨run_missing_size_limit_exceeded_key eNoKey tvOneHost [mntRoot] mntRoot 40 100
      "/etc/origin" [] "h1" [] 30 fOne rfl (by decide) rfl rfl rfl rfl rfl rfl
      (by decide) (by decide) rfl,
    rfl, rfl, rfl⟩

/-- C10: even with the `etcd_max_image_data_size_bytes` override present, `run`
still reads `size_available` and `size_total` from the resolved mount before the
override lookup, so a resolved mount record lacking either size field makes the
whole check raise a `KeyError` (no report, no executor invocation). -/
theorem run_override_still_reads_sizes (e : ExecArgs → KeySizeResult) (tv : TaskVars)
    (ms : List MountRecord) (mrec : MountRecord) (v : Int)
    (h₁ : tv.ansible_mounts = some ms)
    (h₂ : _get_etcd_mountpath ms = Except.ok mrec)
    (hov : tv.etcd_max_image_data_size_bytes = some v) :
    (mrec.size_available = none →
      run e tv = ([], Except.error (PyError.keyError "size_available"))) ∧
    (∀ x, mrec.size_available = some x → mrec.size_total = none →
      run e tv = ([], Except.error (PyError.keyError "size_total"))) := by
  constructor
  · intro hnone
    unfold run
    rw [h₁]
    simp only [h₂, hnone]
  · intro x hx hnone
    unfold run
    rw [h₁]
    simp only [h₂, hx, hnone]

def mntNoSizes : MountRecord := ⟨"/", none, none⟩

def tvNoSizes : TaskVars :=
  ⟨some [mntNoSizes], some 99, none, none, some ["h1"], some "/etc/origin",
    none, none, none⟩

/-- C10 witness: an override of `99` bytes is present, yet the run with a mount
record lacking `size_available` raises `KeyError "size_available"` and invokes no
executor. -/
theorem run_override_still_reads_sizes_witness :
    tvNoSizes.etcd_max_image_data_size_bytes = some 99 ∧
      run eAllOk tvNoSizes = ([], Except.error (PyError.keyError "size_available")) :=
  ⟨rfl,
    (run_override_still_reads_sizes eAllOk tvNoSizes [mntNoSizes] mntNoSizes 99
        rfl (by decide) rfl).1 rfl⟩
